import Mathlib

/-
Verification of the core monitoring logic of the dockerized-redis-cluster
repository.  The embedding translates, from the Python sources:

  app/downtime-ping.py : per-node and per-slot-range downtime monitor
    (structures NodeStatus, SlotRange, ClusterStatus and the methods
    mark_down, mark_up, uptime_percentage, update_topology, check_node,
    shutdown of RedisClusterMonitor);
  app/downtime-keys.py : per-shard key-based monitor (ShardStatus and the
    shard-weighted uptime_percentage of its ClusterStatus);
  app/downtime.py      : operation-level monitor (DowntimeEvent,
    MonitoringStats, the downtime-verdict logic of detect_downtime_start,
    and shutdown of RedisClusterMonitor).

Time is modelled by rational numbers: datetime timestamps and timedelta
durations both become values of type ℚ, and the timestamp that Python
obtains from datetime.now() is passed explicitly as a parameter.  Python
dictionaries become association lists with first-occurrence lookup.
Printing and network I/O are dropped; each probe outcome that the network
would produce appears as an explicit boolean parameter.
-/

/- Association-list helpers standing in for Python dictionaries. -/

def alookup {α β : Type} [DecidableEq α] : List (α × β) → α → Option β
  | [], _ => none
  | p :: rest, k => if p.1 = k then some p.2 else alookup rest k

def aupdate {α β : Type} [DecidableEq α] (f : β → β) : List (α × β) → α → List (α × β)
  | [], _ => []
  | p :: rest, k => if p.1 = k then (p.1, f p.2) :: rest else p :: aupdate f rest k

def aset {α β : Type} [DecidableEq α] : List (α × β) → α → β → List (α × β)
  | [], k, v => [(k, v)]
  | p :: rest, k, v => if p.1 = k then (k, v) :: rest else p :: aset rest k v

def akeys {α β : Type} (l : List (α × β)) : List α := l.map Prod.fst

/- The downtime-ping.py monitor. -/

namespace Ping

abbrev NodeId := String

/-- NodeStatus from downtime-ping.py (lines 46-90).  The host and port
fields are folded into node_id, which the source always sets to
"host:port"; last_check is dropped (it is only read for scheduling). -/
structure NodeStatus where
  node_id : NodeId
  is_master : Bool
  is_up : Bool := true
  downtime_start : Option ℚ := none
  current_downtime : ℚ := 0
  total_downtime : ℚ := 0
  downtime_events : List (ℚ × ℚ × ℚ) := []
deriving DecidableEq, Repr

/-- NodeStatus.mark_down (lines 71-77). -/
def NodeStatus.mark_down (n : NodeStatus) (timestamp : ℚ) : NodeStatus :=
  if n.is_up then
    { n with is_up := false, downtime_start := some timestamp }
  else n

/-- NodeStatus.mark_up (lines 79-90). -/
def NodeStatus.mark_up (n : NodeStatus) (timestamp : ℚ) : NodeStatus :=
  if ¬ n.is_up then
    match n.downtime_start with
    | some ds =>
      { n with
        is_up := true,
        current_downtime := timestamp - ds,
        total_downtime := n.total_downtime + (timestamp - ds),
        downtime_events := n.downtime_events ++ [(ds, timestamp, timestamp - ds)],
        downtime_start := none }
    | none => n
  else n

/-- SlotRange from downtime-ping.py (lines 92-132).  The Python field
`end` is a Lean keyword and is written «end» here. -/
structure SlotRange where
  start : Nat
  «end» : Nat
  current_master_id : NodeId
  is_down : Bool := false
  downtime_start : Option ℚ := none
  current_downtime : ℚ := 0
  total_downtime : ℚ := 0
  downtime_events : List (ℚ × ℚ × ℚ × NodeId × NodeId) := []
deriving DecidableEq, Repr

/-- SlotRange.slot_count (lines 104-106). -/
def SlotRange.slot_count (sr : SlotRange) : Nat := sr.«end» - sr.start + 1

/-- SlotRange.mark_down (lines 108-113). -/
def SlotRange.mark_down (sr : SlotRange) (timestamp : ℚ) : SlotRange :=
  if ¬ sr.is_down then
    { sr with is_down := true, downtime_start := some timestamp }
  else sr

/-- SlotRange.mark_up (lines 115-132): completes the downtime event,
recording (start, end, duration, old master, new master), and installs the
new master. -/
def SlotRange.mark_up (sr : SlotRange) (new_master_id : NodeId) (timestamp : ℚ) : SlotRange :=
  if sr.is_down then
    match sr.downtime_start with
    | some ds =>
      { sr with
        is_down := false,
        current_downtime := timestamp - ds,
        total_downtime := sr.total_downtime + (timestamp - ds),
        downtime_events := sr.downtime_events ++
          [(ds, timestamp, timestamp - ds, sr.current_master_id, new_master_id)],
        current_master_id := new_master_id,
        downtime_start := none }
    | none => sr
  else sr

/-- ClusterStatus from downtime-ping.py (lines 134-141); start_time and
last_topology_check are dropped (total runtime is passed explicitly to
uptime_percentage, scheduling is outside the model). -/
structure ClusterStatus where
  nodes : List (NodeId × NodeStatus) := []
  slot_ranges : List ((Nat × Nat) × SlotRange) := []
  topology_changes : Nat := 0
deriving DecidableEq, Repr

/-- ClusterStatus.uptime_percentage (lines 147-168), with
total_runtime = now - start_time supplied as the argument. -/
def ClusterStatus.uptime_percentage (st : ClusterStatus) (total_runtime : ℚ) : ℚ :=
  if st.slot_ranges = [] then 100
  else
    let total_slot_downtime : ℚ :=
      (st.slot_ranges.map
        (fun p => p.2.total_downtime * ((p.2.slot_count : ℚ) / 16384))).sum
    if total_runtime = 0 then 100
    else max 0 (min 100 (100 - total_slot_downtime / total_runtime * 100))

/-- One entry of the cluster_slots() answer after the parsing in
update_topology (lines 213-299): a slot range, its primary's address and
the replica addresses. -/
structure SnapEntry where
  range : Nat × Nat
  master : NodeId
  replicas : List NodeId
deriving DecidableEq, Repr

abbrev Snapshot := List SnapEntry

/-- The set current_masters of update_topology (membership only). -/
def currentMasters (snap : Snapshot) : List NodeId := snap.map (·.master)

/-- The set current_nodes of update_topology (membership only). -/
def currentNodes (snap : Snapshot) : List NodeId :=
  snap.map (·.master) ++ (snap.map (·.replicas)).flatten

/-- The dict current_slot_masters of update_topology: built by dictionary
assignment, so a later duplicate range key overwrites an earlier one. -/
def currentSlotMasters (snap : Snapshot) : List ((Nat × Nat) × NodeId) :=
  snap.foldl (fun d e => aset d e.range e.master) []

def newMasterNode (nid : NodeId) : NodeStatus :=
  { node_id := nid, is_master := true }

def newReplicaNode (nid : NodeId) : NodeStatus :=
  { node_id := nid, is_master := false }

/-- The per-address registration that the parsing loop of update_topology
performs (lines 227-253): a master is added if unknown, otherwise its
is_master flag is set; a replica is added only if unknown. -/
def registerNode (nodes : List (NodeId × NodeStatus)) (nid : NodeId) (master : Bool) :
    List (NodeId × NodeStatus) :=
  match alookup nodes nid with
  | none => nodes ++ [(nid, if master then newMasterNode nid else newReplicaNode nid)]
  | some _ => if master then aupdate (fun n => { n with is_master := true }) nodes nid else nodes

/-- The whole parsing loop of update_topology restricted to its effect on
self.status.nodes: register each entry's primary, then its replicas. -/
def addSnapshotNodes (nodes : List (NodeId × NodeStatus)) (snap : Snapshot) :
    List (NodeId × NodeStatus) :=
  snap.foldl
    (fun ns e => e.replicas.foldl (fun ns2 r => registerNode ns2 r false)
      (registerNode ns e.master true))
    nodes

/-- The dead-code new-masters scan of update_topology (lines 302-311):
after the parsing loop every current master already has is_master = true,
so this flag in fact never fires, but it is kept for fidelity. -/
def newMastersFlag (nodes : List (NodeId × NodeStatus)) (masters : List NodeId) : Bool :=
  masters.any (fun nid =>
    match alookup nodes nid with
    | none => false
    | some n => !n.is_master)

/-- The demotion test of the per-node update loop (lines 318-326): a
tracked node that is still in the cluster, is not a current master, and
was marked master, flips topology_changed. -/
def demotionFlag (nodes : List (NodeId × NodeStatus)) (masters cnodes : List NodeId) : Bool :=
  nodes.any (fun p =>
    (!(decide (p.1 ∈ masters))) && (decide (p.1 ∈ cnodes)) && p.2.is_master)

/-- The per-node body of the update loop of update_topology
(lines 319-332): current masters get is_master := true, other nodes still
in the cluster get is_master := false, and a node absent from the cluster
is marked down now. -/
def updateNodeEntry (masters cnodes : List NodeId) (now : ℚ) (p : NodeId × NodeStatus) :
    NodeId × NodeStatus :=
  if p.1 ∈ masters then (p.1, { p.2 with is_master := true })
  else if p.1 ∈ cnodes then (p.1, { p.2 with is_master := false })
  else (p.1, p.2.mark_down now)

/-- One iteration of the slot-assignment loop of update_topology
(lines 335-358), acting on the accumulated (slot_ranges, topology_changed)
pair. -/
def applyRangeEntry (now : ℚ)
    (acc : List ((Nat × Nat) × SlotRange) × Bool) (e : (Nat × Nat) × NodeId) :
    List ((Nat × Nat) × SlotRange) × Bool :=
  match alookup acc.1 e.1 with
  | none =>
    (acc.1 ++ [(e.1, { start := e.1.1, «end» := e.1.2, current_master_id := e.2 })], true)
  | some sr =>
    if sr.current_master_id ≠ e.2 then
      (aupdate
        (fun sr2 => if sr2.is_down then sr2.mark_up e.2 now
                    else { sr2 with current_master_id := e.2 })
        acc.1 e.1, true)
    else acc

/-- The slot-assignment loop of update_topology over the whole
current_slot_masters dict. -/
def rangesPass (ranges : List ((Nat × Nat) × SlotRange))
    (sm : List ((Nat × Nat) × NodeId)) (now : ℚ) :
    List ((Nat × Nat) × SlotRange) × Bool :=
  sm.foldl (applyRangeEntry now) (ranges, false)

/-- The removed-ranges test of update_topology (lines 360-366). -/
def removedRangesFlag (ranges : List ((Nat × Nat) × SlotRange))
    (smKeys : List (Nat × Nat)) : Bool :=
  ranges.any (fun p => !(decide (p.1 ∈ smKeys)))

/-- Deletion of the removed ranges (lines 363-365). -/
def removeAbsentRanges (ranges : List ((Nat × Nat) × SlotRange))
    (smKeys : List (Nat × Nat)) : List ((Nat × Nat) × SlotRange) :=
  ranges.filter (fun p => decide (p.1 ∈ smKeys))

/-- RedisClusterMonitor.update_topology (lines 198-421) on an already
parsed snapshot: register snapshot nodes, compute the dead new-masters
flag, run the per-node update loop, the slot-assignment loop and the
removed-ranges deletion, and bump topology_changes when any change was
flagged. -/
def update_topology (st : ClusterStatus) (snap : Snapshot) (now : ℚ) : ClusterStatus :=
  let masters := currentMasters snap
  let cnodes := currentNodes snap
  let sm := currentSlotMasters snap
  let nodes1 := addSnapshotNodes st.nodes snap
  let promoFlag := newMastersFlag nodes1 masters
  let demoFlag := demotionFlag nodes1 masters cnodes
  let nodes2 := nodes1.map (updateNodeEntry masters cnodes now)
  let r := rangesPass st.slot_ranges sm now
  let remFlag := removedRangesFlag r.1 (akeys sm)
  let ranges3 := removeAbsentRanges r.1 (akeys sm)
  let changed := promoFlag || demoFlag || r.2 || remFlag
  { nodes := nodes2, slot_ranges := ranges3,
    topology_changes := st.topology_changes + (if changed then 1 else 0) }

/-- RedisClusterMonitor.check_node (lines 506-563) with the probe outcome
ping_ok passed in: on success an already-up node is untouched and a down
node is marked up (slot ranges are not touched); on failure from an up
node, the node and every not-yet-down slot range it owns are marked down;
a failure while the node is already down changes nothing. -/
def check_node (st : ClusterStatus) (node_id : NodeId) (ping_ok : Bool) (now : ℚ) :
    ClusterStatus :=
  match alookup st.nodes node_id with
  | none => st
  | some node =>
    if ping_ok then
      { st with
        nodes := aupdate (fun n => if ¬ n.is_up then n.mark_up now else n) st.nodes node_id }
    else
      if node.is_up then
        { st with
          nodes := aupdate (fun n => n.mark_down now) st.nodes node_id,
          slot_ranges := st.slot_ranges.map (fun p =>
            if p.2.current_master_id = node_id ∧ ¬ p.2.is_down then
              (p.1, p.2.mark_down now)
            else p) }
      else st

/-- RedisClusterMonitor.shutdown of downtime-ping.py (lines 722-750): it
only prints the final report from the tracked state and performs no state
mutation at all; in particular no open downtime interval is closed. -/
def shutdown (st : ClusterStatus) : ClusterStatus := st

/-- The state invariant of the monitor's health states, for nodes. -/
def NodeStatus.healthInv (n : NodeStatus) : Prop :=
  (n.is_up = false) ↔ n.downtime_start.isSome = true

/-- The state invariant of the monitor's health states, for slot ranges. -/
def SlotRange.healthInv (sr : SlotRange) : Prop :=
  (sr.is_down = true) ↔ sr.downtime_start.isSome = true

instance (n : NodeStatus) : Decidable n.healthInv := by
  unfold NodeStatus.healthInv; infer_instance

instance (sr : SlotRange) : Decidable sr.healthInv := by
  unfold SlotRange.healthInv; infer_instance

end Ping

/- The downtime-keys.py monitor. -/

namespace Keys

/-- ShardStatus from downtime-keys.py (lines 40-97); the key and
last_check / last_value fields are dropped (they feed only I/O and
display). -/
structure ShardStatus where
  shard_id : String
  slot_range : Nat × Nat
  master_address : String
  is_up : Bool := true
  downtime_start : Option ℚ := none
  current_downtime : ℚ := 0
  total_downtime : ℚ := 0
  downtime_events : List (ℚ × ℚ × ℚ) := []
deriving DecidableEq, Repr

/-- ShardStatus.slot_count (lines 55-58). -/
def ShardStatus.slot_count (s : ShardStatus) : Nat :=
  s.slot_range.2 - s.slot_range.1 + 1

/-- ShardStatus.current_total_downtime (lines 60-68): total completed
downtime plus the ongoing interval when the shard is down. -/
def ShardStatus.current_total_downtime (s : ShardStatus) (now : ℚ) : ℚ :=
  if s.is_up then s.total_downtime
  else
    match s.downtime_start with
    | none => s.total_downtime
    | some ds => s.total_downtime + (now - ds)

/-- ShardStatus.mark_down (lines 70-77). -/
def ShardStatus.mark_down (s : ShardStatus) (timestamp : ℚ) : ShardStatus :=
  if s.is_up then
    { s with is_up := false, downtime_start := some timestamp }
  else s

/-- ShardStatus.mark_up (lines 79-97). -/
def ShardStatus.mark_up (s : ShardStatus) (timestamp : ℚ) : ShardStatus :=
  if ¬ s.is_up then
    match s.downtime_start with
    | some ds =>
      { s with
        is_up := true,
        current_downtime := timestamp - ds,
        total_downtime := s.total_downtime + (timestamp - ds),
        downtime_events := s.downtime_events ++ [(ds, timestamp, timestamp - ds)],
        downtime_start := none }
    | none => s
  else s

/-- ClusterStatus.uptime_percentage of downtime-keys.py (lines 107-131):
the sum of current_total_downtime times slot count over all shards,
against total runtime times 16384 slots, clamped to [0, 100]. -/
def uptime_percentage (shards : List ShardStatus) (total_runtime now : ℚ) : ℚ :=
  if shards = [] then 100
  else
    let total_slot_downtime : ℚ :=
      (shards.map (fun s => s.current_total_downtime now * (s.slot_count : ℚ))).sum
    let total_possible_uptime : ℚ := total_runtime * 16384
    if total_possible_uptime = 0 then 100
    else max 0 (min 100 (100 - total_slot_downtime / total_possible_uptime * 100))

/-- The state invariant of the monitor's health states, for shards. -/
def ShardStatus.healthInv (s : ShardStatus) : Prop :=
  (s.is_up = false) ↔ s.downtime_start.isSome = true

instance (s : ShardStatus) : Decidable s.healthInv := by
  unfold ShardStatus.healthInv; infer_instance

end Keys

/- The downtime.py operation-level monitor. -/

namespace Ops

/-- DowntimeEvent from downtime.py (lines 52-65). -/
structure DowntimeEvent where
  start_time : ℚ
  end_time : Option ℚ := none
  duration : Option ℚ := none
  failure_type : String := "unknown"
  operations_failed : List String := []
  recovery_operations : List String := []
deriving DecidableEq, Repr

/-- DowntimeEvent.complete (lines 62-65). -/
def DowntimeEvent.complete (e : DowntimeEvent) (recovery_time : ℚ) : DowntimeEvent :=
  { e with end_time := some recovery_time, duration := some (recovery_time - e.start_time) }

/-- MonitoringStats from downtime.py (lines 67-93). -/
structure MonitoringStats where
  total_runtime : ℚ := 0
  total_downtime : ℚ := 0
  downtime_events : List DowntimeEvent := []
  total_operations : Nat := 0
  failed_operations : Nat := 0
deriving DecidableEq, Repr

/-- MonitoringStats.uptime_percentage (lines 76-82): unclamped ratio of
uptime to runtime, with zero runtime defined as 100. -/
def MonitoringStats.uptime_percentage (s : MonitoringStats) : ℚ :=
  if s.total_runtime = 0 then 100
  else (s.total_runtime - s.total_downtime) / s.total_runtime * 100

/-- The mutable monitor fields of RedisClusterMonitor in downtime.py
(lines 98-106) that the downtime ledger touches. -/
structure MonitorState where
  stats : MonitoringStats := {}
  current_downtime : Option DowntimeEvent := none
  start_time : ℚ := 0
  consecutive_failures : Nat := 0
  last_error_types : List String := []
deriving DecidableEq, Repr

/-- The per-cycle probe outcomes fed to detect_downtime_start: one
(operation name, success) pair per operation of the cycle. -/
def failedOps (results : List (String × Bool)) : List String :=
  (results.filter (fun r => !r.2)).map Prod.fst

/-- The downtime decision of detect_downtime_start (lines 284-291):
in strict mode any failure is downtime, otherwise downtime needs at least
len(operations) // 2 + 1 failures. -/
def is_downtime_verdict (strict : Bool) (results : List (String × Bool)) : Bool :=
  let failed := (failedOps results).length
  if strict then decide (failed > 0)
  else decide (failed ≥ results.length / 2 + 1)

/-- The liveness verdict (up = true) decided by one evaluation cycle. -/
def liveness_verdict (strict : Bool) (results : List (String × Bool)) : Bool :=
  !(is_downtime_verdict strict results)

/-- The state mutation of detect_downtime_start (lines 268-321) given the
cycle's probe outcomes and the error-detail strings: on a downtime
verdict, bump consecutive_failures, record the error details, and either
open a new DowntimeEvent or append the not-yet-recorded failed operations
to the ongoing one; otherwise reset the failure counters. -/
def detect_downtime_step (strict : Bool) (st : MonitorState)
    (results : List (String × Bool)) (error_details : List String) (now : ℚ) :
    MonitorState :=
  let failed_ops := failedOps results
  if is_downtime_verdict strict results then
    let st1 := { st with
      consecutive_failures := st.consecutive_failures + 1,
      last_error_types := error_details }
    match st.current_downtime with
    | none =>
      let ev0 : DowntimeEvent :=
        { start_time := now, failure_type := "operation_failure",
          operations_failed := failed_ops }
      { st1 with current_downtime := some ev0 }
    | some ev =>
      let ops1 : List String :=
        failed_ops.foldl (fun acc op => if op ∈ acc then acc else acc ++ [op])
          ev.operations_failed
      { st1 with current_downtime := some { ev with operations_failed := ops1 } }
  else { st with consecutive_failures := 0, last_error_types := [] }

/-- RedisClusterMonitor.shutdown of downtime.py (lines 492-504): record
the final runtime and, when a downtime event is still open, complete it
at the shutdown timestamp, append it to the ledger and add its duration
to the total. -/
def shutdown (st : MonitorState) (now : ℚ) : MonitorState :=
  let stats1 := { st.stats with total_runtime := now - st.start_time }
  match st.current_downtime with
  | none => { st with stats := stats1 }
  | some ev =>
    { st with stats :=
        { stats1 with
          downtime_events := stats1.downtime_events ++ [ev.complete now],
          total_downtime := stats1.total_downtime + (now - ev.start_time) } }

end Ops

/-- Modelled from the spec: the slot-weighted cluster uptime formula of
section 4.4, `uptime = 100 * (1 - sum(downtime_i * slots_i / 16384) /
runtime)` clamped to [0, 100], over (slot count, downtime seconds) pairs.
It exists to be compared with the uptime_percentage functions translated
from the code. -/
def specUptimeFormula (entries : List (Nat × ℚ)) (total_runtime : ℚ) : ℚ :=
  max 0 (min 100
    (100 * (1 - (entries.map (fun e => e.2 * (e.1 : ℚ) / 16384)).sum / total_runtime)))

namespace Ping

/-- The test that one entry of the current_slot_masters dict triggers the
topology_changed flag in the slot-assignment loop (lines 335-358): the
range is new to the registry, or its registered master differs from the
snapshot's. -/
def rangeEntryChanged (ranges : List ((Nat × Nat) × SlotRange))
    (e : (Nat × Nat) × NodeId) : Bool :=
  match alookup ranges e.1 with
  | none => true
  | some sr => decide (sr.current_master_id ≠ e.2)

/-- What one iteration of the slot-assignment loop leaves at its own key:
a fresh SlotRange when the key was absent, otherwise the recovery /
owner-update of lines 344-358. -/
def rangeTransform (o : Option SlotRange) (r : Nat × Nat) (m : NodeId) (now : ℚ) :
    SlotRange :=
  match o with
  | none => { start := r.1, «end» := r.2, current_master_id := m }
  | some sr =>
    if sr.current_master_id ≠ m then
      (if sr.is_down then sr.mark_up m now else { sr with current_master_id := m })
    else sr

end Ping

/- Concrete states used by the closed scenario theorems below. -/

/-- A ping-monitor state with a single master A owning all slots,
everything up. -/
def pingBaseState : Ping.ClusterStatus :=
  { nodes := [("A", { node_id := "A", is_master := true })],
    slot_ranges := [((0, 16383),
      { start := 0, «end» := 16383, current_master_id := "A" })],
    topology_changes := 0 }

/-- A snapshot identical to pingBaseState's topology except that a new
replica node B appears. -/
def snapAddReplica : Ping.Snapshot :=
  [{ range := (0, 16383), master := "A", replicas := ["B"] }]

/-- A ping-monitor state whose only node A has been down since time 5
with the downtime interval still open. -/
def pingDownState : Ping.ClusterStatus :=
  { nodes := [("A",
      { node_id := "A", is_master := true, is_up := false, downtime_start := some 5 })],
    slot_ranges := [],
    topology_changes := 0 }

/-- A snapshot whose two slot ranges overlap (slots 50-100 are claimed by
both), i.e. a malformed snapshot in the spec's sense. -/
def snapOverlapping : Ping.Snapshot :=
  [{ range := (0, 100), master := "A", replicas := [] },
   { range := (50, 200), master := "B", replicas := [] }]

/-- A ping-monitor state with one full-keyspace slot range that was down
for 5 seconds (one completed event), used for the uptime scenario. -/
def pingScenarioState : Ping.ClusterStatus :=
  { nodes := [("A", { node_id := "A", is_master := true })],
    slot_ranges := [((0, 16383),
      { start := 0, «end» := 16383, current_master_id := "B", total_downtime := 5,
        downtime_events := [(0, 5, 5, "A", "B")] })],
    topology_changes := 1 }

/-- One probe cycle of the four operations of downtime.py in which only
the write probe fails. -/
def fourProbesOneFail : List (String × Bool) :=
  [("write", false), ("read", true), ("list_op", true), ("cluster_info", true)]

/-- One probe cycle of the four operations of downtime.py in which
exactly half of the probes (two of four) fail. -/
def fourProbesTwoFail : List (String × Bool) :=
  [("write", false), ("read", false), ("list_op", true), ("cluster_info", true)]

/-- A key-monitor shard that has been down since time 0 with no completed
event yet (total_downtime still 0). -/
def keysDownShard : Keys.ShardStatus :=
  { shard_id := "shard-0-16383", slot_range := (0, 16383), master_address := "A",
    is_up := false, downtime_start := some 0 }

/-- An operation-monitor state that is inside an open downtime event
started at time 5 (write probe failing), with monitoring started at 0. -/
def opsOngoingEvent : Ops.DowntimeEvent :=
  { start_time := 5, failure_type := "operation_failure", operations_failed := ["write"] }

def opsOngoingState : Ops.MonitorState :=
  { current_downtime := some opsOngoingEvent }

/-- A ping-monitor state whose only slot range (all 16384 slots, owned by
A) is down with an open interval since time 2; node A is down too. -/
def pingDownRangeState : Ping.ClusterStatus :=
  { nodes := [("A",
      { node_id := "A", is_master := true, is_up := false, downtime_start := some 2 })],
    slot_ranges := [((0, 16383),
      { start := 0, «end» := 16383, current_master_id := "A", is_down := true,
        downtime_start := some 2 })],
    topology_changes := 0 }

/-- A snapshot reporting that node B now owns the whole slot space. -/
def snapOwnerB : Ping.Snapshot := [{ range := (0, 16383), master := "B", replicas := [] }]

/-- A ping-monitor state tracking nothing yet. -/
def pingEmptyState : Ping.ClusterStatus := {}

/- Generic lemmas about the association-list helpers. -/

theorem alookup_mem {α β : Type} [DecidableEq α] {l : List (α × β)} {k : α} {v : β}
    (h : alookup l k = some v) : (k, v) ∈ l := by
  induction l with
  | nil => simp [alookup] at h
  | cons p rest ih =>
    obtain ⟨a, b⟩ := p
    by_cases hk : a = k
    · subst hk
      simp [alookup] at h
      subst h
      exact List.mem_cons_self _ _
    · simp only [alookup, hk, if_false] at h
      exact List.mem_cons_of_mem _ (ih h)

theorem mem_akeys_of_alookup {α β : Type} [DecidableEq α] {l : List (α × β)} {k : α} {v : β}
    (h : alookup l k = some v) : k ∈ akeys l :=
  List.mem_map.mpr ⟨(k, v), alookup_mem h, rfl⟩

theorem alookup_append_of_some {α β : Type} [DecidableEq α] {l : List (α × β)} {k : α} {v : β}
    (l2 : List (α × β)) (h : alookup l k = some v) : alookup (l ++ l2) k = some v := by
  induction l with
  | nil => simp [alookup] at h
  | cons p rest ih =>
    by_cases hk : p.1 = k
    · simp only [alookup, hk, if_true] at h ⊢
      exact h
    · simp only [List.cons_append, alookup, hk, if_false] at h ⊢
      exact ih h

theorem alookup_append_of_none {α β : Type} [DecidableEq α] {l : List (α × β)} {k : α}
    (l2 : List (α × β)) (h : alookup l k = none) : alookup (l ++ l2) k = alookup l2 k := by
  induction l with
  | nil => simp
  | cons p rest ih =>
    by_cases hk : p.1 = k
    · simp [alookup, hk] at h
    · simp only [List.cons_append, alookup, hk, if_false] at h ⊢
      exact ih h

theorem alookup_aupdate_self {α β : Type} [DecidableEq α] (f : β → β) (l : List (α × β))
    (k : α) : alookup (aupdate f l k) k = (alookup l k).map f := by
  induction l with
  | nil => simp [alookup, aupdate]
  | cons p rest ih =>
    by_cases hk : p.1 = k
    · simp [aupdate, alookup, hk]
    · simp only [aupdate, hk, if_false, alookup, ih]

theorem alookup_aupdate_ne {α β : Type} [DecidableEq α] (f : β → β) (l : List (α × β))
    {k k2 : α} (h : k2 ≠ k) : alookup (aupdate f l k) k2 = alookup l k2 := by
  induction l with
  | nil => simp [aupdate]
  | cons p rest ih =>
    have hkk : ¬ k = k2 := fun hh => h hh.symm
    by_cases hk : p.1 = k
    · simp [aupdate, alookup, hk, hkk]
    · by_cases hp : p.1 = k2
      · simp [aupdate, alookup, hk, hp, hkk, h]
      · simp [aupdate, alookup, hk, hp, ih]

theorem any_aupdate {α β : Type} [DecidableEq α] {f : β → β} {l : List (α × β)} {k : α}
    {pred : α × β → Bool} (hf : ∀ v, pred (k, f v) = pred (k, v)) :
    (aupdate f l k).any pred = l.any pred := by
  induction l with
  | nil => simp [aupdate]
  | cons p rest ih =>
    obtain ⟨a, b⟩ := p
    by_cases hk : a = k
    · subst hk
      simp [aupdate, hf]
    · simp [aupdate, hk, ih]

theorem akeys_aupdate {α β : Type} [DecidableEq α] (f : β → β) (l : List (α × β)) (k : α) :
    akeys (aupdate f l k) = akeys l := by
  induction l with
  | nil => simp [aupdate]
  | cons p rest ih =>
    by_cases hk : p.1 = k
    · simp [aupdate, akeys, hk]
    · simp only [aupdate, hk, if_false, akeys, List.map_cons]
      rw [show (aupdate f rest k).map Prod.fst = akeys (aupdate f rest k) from rfl, ih, akeys]

theorem forall_aupdate {α β : Type} [DecidableEq α] {f : β → β} {l : List (α × β)} {k : α}
    {P : β → Prop} (hl : ∀ p ∈ l, P p.2) (hf : ∀ v, P v → P (f v)) :
    ∀ p ∈ aupdate f l k, P p.2 := by
  induction l with
  | nil => simp [aupdate]
  | cons p rest ih =>
    intro q hq
    by_cases hk : p.1 = k
    · simp only [aupdate, hk, if_true, List.mem_cons] at hq
      rcases hq with hq | hq
      · subst hq
        exact hf _ (hl p (List.mem_cons_self _ _))
      · exact hl q (List.mem_cons_of_mem _ hq)
    · simp only [aupdate, hk, if_false, List.mem_cons] at hq
      rcases hq with hq | hq
      · subst hq
        exact hl q (List.mem_cons_self _ _)
      · exact ih (fun r hr => hl r (List.mem_cons_of_mem _ hr)) q hq

theorem mem_akeys_aset {α β : Type} [DecidableEq α] {l : List (α × β)} {k x : α} {v : β} :
    x ∈ akeys (aset l k v) ↔ x = k ∨ x ∈ akeys l := by
  induction l with
  | nil => simp [aset, akeys]
  | cons p rest ih =>
    by_cases hk : p.1 = k
    · subst hk
      simp only [aset, if_true, akeys, List.map_cons, List.mem_cons]
      constructor
      · rintro (h | h)
        · exact Or.inl h
        · exact Or.inr (Or.inr h)
      · rintro (h | h | h)
        · exact Or.inl h
        · exact Or.inl h
        · exact Or.inr h
    · simp only [aset, hk, if_false, akeys, List.map_cons, List.mem_cons]
      rw [show (aset rest k v).map Prod.fst = akeys (aset rest k v) from rfl]
      rw [show rest.map Prod.fst = akeys rest from rfl]
      constructor
      · rintro (h | h)
        · exact Or.inr (Or.inl h)
        · rcases ih.mp h with h | h
          · exact Or.inl h
          · exact Or.inr (Or.inr h)
      · rintro (h | h | h)
        · exact Or.inr (ih.mpr (Or.inl h))
        · exact Or.inl h
        · exact Or.inr (ih.mpr (Or.inr h))

theorem akeys_aset_nodup {α β : Type} [DecidableEq α] {l : List (α × β)} {k : α} {v : β}
    (h : (akeys l).Nodup) : (akeys (aset l k v)).Nodup := by
  induction l with
  | nil => simp [aset, akeys]
  | cons p rest ih =>
    by_cases hk : p.1 = k
    · subst hk
      simpa [aset, akeys] using h
    · simp only [aset, hk, if_false, akeys, List.map_cons, List.nodup_cons]
      simp only [akeys, List.map_cons, List.nodup_cons] at h
      refine ⟨?_, ih h.2⟩
      intro hmem
      rcases mem_akeys_aset.mp hmem with hh | hh
      · exact hk hh
      · exact h.1 hh

theorem alookup_map_of_some {α β : Type} [DecidableEq α] {f : α × β → α × β}
    (hf : ∀ p, (f p).1 = p.1) {l : List (α × β)} {k : α} {v : β}
    (h : alookup l k = some v) : alookup (l.map f) k = some (f (k, v)).2 := by
  induction l with
  | nil => simp [alookup] at h
  | cons p rest ih =>
    obtain ⟨a, b⟩ := p
    by_cases hk : a = k
    · subst hk
      simp [alookup] at h
      subst h
      simp only [List.map_cons, alookup]
      rw [if_pos (hf (a, b))]
    · simp only [alookup, hk, if_false] at h
      simp only [List.map_cons, alookup]
      rw [if_neg (by rw [hf]; exact hk)]
      exact ih h

theorem currentSlotMasters_keys_nodup (snap : Ping.Snapshot) :
    (akeys (Ping.currentSlotMasters snap)).Nodup := by
  have main : ∀ (l : List Ping.SnapEntry) (d : List ((Nat × Nat) × Ping.NodeId)),
      (akeys d).Nodup →
      (akeys (l.foldl (fun d2 e => aset d2 e.range e.master) d)).Nodup := by
    intro l
    induction l with
    | nil => intro d hd; exact hd
    | cons e rest ih => intro d hd; exact ih _ (akeys_aset_nodup hd)
  exact main snap [] (by simp [akeys])

theorem sum_map_div {α : Type} (l : List α) (f : α → ℚ) (c : ℚ) :
    (l.map (fun x => f x / c)).sum = (l.map f).sum / c := by
  induction l with
  | nil => simp
  | cons a t ih => simp [ih, add_div]

/- The liveness evaluator of downtime.py (claim C2). -/

theorem strict_verdict_eq_all (results : List (String × Bool)) :
    Ops.liveness_verdict true results = results.all (fun r => r.2) := by
  induction results with
  | nil => decide
  | cons r rest ih =>
    obtain ⟨nm, b⟩ := r
    cases b with
    | true =>
      simp only [Ops.liveness_verdict, Ops.is_downtime_verdict, Ops.failedOps] at ih ⊢
      simpa using ih
    | false =>
      simp [Ops.liveness_verdict, Ops.is_downtime_verdict, Ops.failedOps]

theorem majority_verdict_iff (results : List (String × Bool)) :
    Ops.liveness_verdict false results = true ↔
      (Ops.failedOps results).length ≤ results.length / 2 := by
  rw [show Ops.liveness_verdict false results
      = !(decide ((Ops.failedOps results).length ≥ results.length / 2 + 1)) from rfl]
  by_cases h : (Ops.failedOps results).length ≥ results.length / 2 + 1
  · rw [decide_eq_true h]
    simp only [Bool.not_true]
    constructor
    · intro hh; exact absurd hh (by simp)
    · intro hh; omega
  · rw [decide_eq_false h]
    simp only [Bool.not_false]
    constructor
    · intro _; omega
    · intro _; trivial

/-- C2: the Strict policy's verdict is the AND of all probe outcomes; the
Majority policy's verdict is true iff failed_count <= n // 2; with four
probes of which one fails, Strict gives false and Majority gives true.
This is the claim with its "failures < ceil(n/2)" characterisation of the
Majority policy replaced by the code's "failures <= n // 2" (half of the
probes failing still yields verdict true, see the counterexample). -/
theorem C2_policy_verdicts :
    (∀ results : List (String × Bool),
       Ops.liveness_verdict true results = results.all (fun r => r.2))
    ∧ (∀ results : List (String × Bool),
       Ops.liveness_verdict false results = true ↔
         (Ops.failedOps results).length ≤ results.length / 2)
    ∧ Ops.liveness_verdict true fourProbesOneFail = false
    ∧ Ops.liveness_verdict false fourProbesOneFail = true := by
  refine ⟨strict_verdict_eq_all, majority_verdict_iff, by decide, by decide⟩

/-- C2, counterexample: with four probes of which exactly two fail, the
code's Majority verdict is true, yet the claim's "verdict true iff
failures < ceil(n/2)" demands false (2 is not < ceil(4/2) = 2); so half
of the probes failing does not yield a down verdict. -/
theorem C2_policy_counterexample :
    Ops.liveness_verdict false fourProbesTwoFail = true
    ∧ ¬ ((Ops.failedOps fourProbesTwoFail).length <
          (fourProbesTwoFail.length + 1) / 2) := by
  decide

/- The uptime percentage computations (claims C3 and C4). -/

theorem ping_uptime_eq_spec (st : Ping.ClusterStatus) (rt : ℚ) (hrt : rt ≠ 0) :
    st.uptime_percentage rt =
      specUptimeFormula
        (st.slot_ranges.map (fun p => (p.2.slot_count, p.2.total_downtime))) rt := by
  unfold Ping.ClusterStatus.uptime_percentage specUptimeFormula
  by_cases hsr : st.slot_ranges = []
  · simp [hsr, hrt]
  · simp only [hsr, if_false, hrt]
    have hsum :
        ((st.slot_ranges.map (fun p => (p.2.slot_count, p.2.total_downtime))).map
            (fun e => e.2 * (e.1 : ℚ) / 16384)).sum
          = (st.slot_ranges.map
              (fun p => p.2.total_downtime * ((p.2.slot_count : ℚ) / 16384))).sum := by
      rw [List.map_map]
      refine congrArg List.sum (List.map_congr_left ?_)
      intro p hp
      simp [Function.comp, mul_div_assoc]
    rw [hsum]
    congr 1
    congr 1
    ring

theorem keys_uptime_eq_spec (shards : List Keys.ShardStatus) (rt now : ℚ)
    (hrt : rt ≠ 0) (hup : ∀ s ∈ shards, s.is_up = true) :
    Keys.uptime_percentage shards rt now =
      specUptimeFormula (shards.map (fun s => (s.slot_count, s.total_downtime))) rt := by
  unfold Keys.uptime_percentage specUptimeFormula
  by_cases hsh : shards = []
  · simp [hsh, hrt]
  · have hpos : rt * 16384 ≠ 0 := mul_ne_zero hrt (by norm_num)
    simp only [hsh, if_false, hpos]
    have hctd : shards.map (fun s => s.current_total_downtime now * (s.slot_count : ℚ))
        = shards.map (fun s => s.total_downtime * (s.slot_count : ℚ)) := by
      refine List.map_congr_left ?_
      intro s hs
      rw [Keys.ShardStatus.current_total_downtime, if_pos (hup s hs)]
    rw [hctd]
    have hsum :
        ((shards.map (fun s => (s.slot_count, s.total_downtime))).map
            (fun e => e.2 * (e.1 : ℚ) / 16384)).sum
          = (shards.map (fun s => s.total_downtime * (s.slot_count : ℚ))).sum / 16384 := by
      rw [List.map_map]
      rw [show ((fun e : Nat × ℚ => e.2 * (e.1 : ℚ) / 16384) ∘
            fun s : Keys.ShardStatus => (s.slot_count, s.total_downtime))
          = fun s : Keys.ShardStatus => s.total_downtime * (s.slot_count : ℚ) / 16384 from rfl]
      exact sum_map_div shards (fun s => s.total_downtime * (s.slot_count : ℚ)) 16384
    rw [hsum]
    congr 1
    congr 1
    field_simp
    ring

/-- C3: the cluster-wide uptime percentage equals
100 * (1 - sum(total_downtime * slot_count / 16384) / total_runtime)
clamped to [0, 100] (for the downtime-ping monitor exactly; for the
downtime-keys monitor whenever every shard is up, since that monitor
substitutes current_total_downtime for total_downtime), and the scenario
of one 16384-slot range down 5 s out of a 100 s runtime yields exactly
95. -/
theorem C3_uptime_formula :
    (∀ (st : Ping.ClusterStatus) (rt : ℚ), rt ≠ 0 →
       st.uptime_percentage rt =
         specUptimeFormula
           (st.slot_ranges.map (fun p => (p.2.slot_count, p.2.total_downtime))) rt)
    ∧ (∀ (shards : List Keys.ShardStatus) (rt now : ℚ), rt ≠ 0 →
       (∀ s ∈ shards, s.is_up = true) →
       Keys.uptime_percentage shards rt now =
         specUptimeFormula (shards.map (fun s => (s.slot_count, s.total_downtime))) rt)
    ∧ pingScenarioState.uptime_percentage 100 = 95 := by
  refine ⟨ping_uptime_eq_spec, keys_uptime_eq_spec, ?_⟩
  simp [Ping.ClusterStatus.uptime_percentage, pingScenarioState, Ping.SlotRange.slot_count]
  norm_num

theorem C3_uptime_formula_witness :
    pingScenarioState.uptime_percentage 100 =
      specUptimeFormula
        (pingScenarioState.slot_ranges.map (fun p => (p.2.slot_count, p.2.total_downtime)))
        100 :=
  C3_uptime_formula.1 pingScenarioState 100 (by norm_num)

/-- C4: the uptime percentage lies in [0, 100] (for MonitoringStats of
downtime.py under the reachability facts 0 <= total_downtime <=
total_runtime, and unconditionally for the clamped slot-weighted version
of downtime-ping.py); it equals exactly 100 when nothing ever went down,
and it is 100 by definition when the total runtime is zero. -/
theorem C4_uptime_bounds :
    (∀ s : Ops.MonitoringStats, 0 ≤ s.total_downtime →
       s.total_downtime ≤ s.total_runtime →
       0 ≤ s.uptime_percentage ∧ s.uptime_percentage ≤ 100)
    ∧ (∀ s : Ops.MonitoringStats, s.total_downtime = 0 → s.uptime_percentage = 100)
    ∧ (∀ s : Ops.MonitoringStats, s.total_runtime = 0 → s.uptime_percentage = 100)
    ∧ (∀ (st : Ping.ClusterStatus) (rt : ℚ),
       0 ≤ st.uptime_percentage rt ∧ st.uptime_percentage rt ≤ 100)
    ∧ (∀ (st : Ping.ClusterStatus) (rt : ℚ),
       (∀ p ∈ st.slot_ranges, p.2.total_downtime = 0) → st.uptime_percentage rt = 100)
    ∧ (∀ st : Ping.ClusterStatus, st.uptime_percentage 0 = 100) := by
  refine ⟨?_, ?_, ?_, ?_, ?_, ?_⟩
  · intro s h0 h1
    unfold Ops.MonitoringStats.uptime_percentage
    by_cases hrt : s.total_runtime = 0
    · simp [hrt]
    · have hpos : 0 < s.total_runtime :=
        lt_of_le_of_ne (le_trans h0 h1) (fun hh => hrt hh.symm)
      rw [if_neg hrt]
      constructor
      · have : 0 ≤ (s.total_runtime - s.total_downtime) / s.total_runtime :=
          div_nonneg (by linarith) (le_of_lt hpos)
        linarith [mul_nonneg this (by norm_num : (0:ℚ) ≤ 100)]
      · have hle : (s.total_runtime - s.total_downtime) / s.total_runtime ≤ 1 :=
          (div_le_one hpos).mpr (by linarith)
        calc (s.total_runtime - s.total_downtime) / s.total_runtime * 100
            ≤ 1 * 100 := by
              exact mul_le_mul_of_nonneg_right hle (by norm_num)
          _ = 100 := by norm_num
  · intro s h0
    unfold Ops.MonitoringStats.uptime_percentage
    by_cases hrt : s.total_runtime = 0
    · simp [hrt]
    · rw [if_neg hrt, h0, sub_zero, div_self hrt, one_mul]
  · intro s h0
    simp [Ops.MonitoringStats.uptime_percentage, h0]
  · intro st rt
    unfold Ping.ClusterStatus.uptime_percentage
    by_cases hsr : st.slot_ranges = []
    · simp [hsr]
    · by_cases hrt : rt = 0
      · simp [hsr, hrt]
      · simp only [hsr, if_false, hrt]
        constructor
        · exact le_max_left 0 _
        · exact max_le (by norm_num) (min_le_left _ _)
  · intro st rt hdown
    unfold Ping.ClusterStatus.uptime_percentage
    by_cases hsr : st.slot_ranges = []
    · simp [hsr]
    · have hz : (st.slot_ranges.map
          (fun p => p.2.total_downtime * ((p.2.slot_count : ℚ) / 16384))).sum = 0 := by
        apply List.sum_eq_zero
        intro x hx
        rcases List.mem_map.mp hx with ⟨p, hp, hpx⟩
        rw [← hpx, hdown p hp, zero_mul]
      by_cases hrt : rt = 0
      · simp [hsr, hrt]
      · simp only [hsr, if_false, hrt]
        rw [hz]
        norm_num
  · intro st
    unfold Ping.ClusterStatus.uptime_percentage
    by_cases hsr : st.slot_ranges = []
    · simp [hsr]
    · simp [hsr]

theorem C4_uptime_bounds_witness :
    0 ≤ Ops.MonitoringStats.uptime_percentage { total_runtime := 100, total_downtime := 5 }
    ∧ Ops.MonitoringStats.uptime_percentage { total_runtime := 100, total_downtime := 5 }
        ≤ 100 :=
  C4_uptime_bounds.1 { total_runtime := 100, total_downtime := 5 }
    (by norm_num) (by norm_num)

/-- C3, counterexample: for a currently-down shard the downtime-keys
monitor computes its uptime from current_total_downtime (which includes
the ongoing open interval), not from total_downtime as the claim states:
a shard down since time 0 with total_downtime = 0 gives 0 percent at
runtime 10, while the claimed formula over total_downtime gives 100. -/
theorem C3_keys_ongoing_counterexample :
    Keys.uptime_percentage [keysDownShard] 10 10 = 0
    ∧ specUptimeFormula [(keysDownShard.slot_count, keysDownShard.total_downtime)] 10
        = 100 := by
  constructor
  · simp [Keys.uptime_percentage, keysDownShard, Keys.ShardStatus.current_total_downtime,
      Keys.ShardStatus.slot_count]
    norm_num
  · simp [specUptimeFormula, keysDownShard, Keys.ShardStatus.slot_count]

/- Shutdown behaviour (claim C7). -/

theorem ops_shutdown_closes_open_event (st : Ops.MonitorState) (now : ℚ)
    (ev : Ops.DowntimeEvent) (h : st.current_downtime = some ev) :
    (Ops.shutdown st now).stats.downtime_events
        = st.stats.downtime_events ++ [ev.complete now]
    ∧ (ev.complete now).end_time = some now
    ∧ (Ops.shutdown st now).stats.total_downtime
        = st.stats.total_downtime + (now - ev.start_time)
    ∧ (Ops.shutdown st now).stats.total_runtime = now - st.start_time := by
  unfold Ops.shutdown
  rw [h]
  exact ⟨rfl, rfl, rfl, rfl⟩

/-- C7: in downtime.py the claim holds: shutdown completes the open
downtime event at the shutdown timestamp, appends it to the ledger and
adds its full duration to the total before the final metrics are read.
This is the claim restricted to the operation-level monitor; the
counterexample shows the downtime-ping monitor does not close open
events at shutdown. -/
theorem C7_ops_shutdown_closes :
    ∀ (st : Ops.MonitorState) (now : ℚ) (ev : Ops.DowntimeEvent),
      st.current_downtime = some ev →
      (Ops.shutdown st now).stats.downtime_events
          = st.stats.downtime_events ++ [ev.complete now]
      ∧ (ev.complete now).end_time = some now
      ∧ (Ops.shutdown st now).stats.total_downtime
          = st.stats.total_downtime + (now - ev.start_time)
      ∧ (Ops.shutdown st now).stats.total_runtime = now - st.start_time :=
  ops_shutdown_closes_open_event

theorem C7_ops_shutdown_closes_witness :
    (Ops.shutdown opsOngoingState 10).stats.downtime_events
        = opsOngoingState.stats.downtime_events ++ [opsOngoingEvent.complete 10]
    ∧ (opsOngoingEvent.complete 10).end_time = some 10
    ∧ (Ops.shutdown opsOngoingState 10).stats.total_downtime
        = opsOngoingState.stats.total_downtime + (10 - opsOngoingEvent.start_time)
    ∧ (Ops.shutdown opsOngoingState 10).stats.total_runtime
        = 10 - opsOngoingState.start_time :=
  C7_ops_shutdown_closes opsOngoingState 10 opsOngoingEvent rfl

/-- C7, counterexample: the shutdown of downtime-ping.py only prints; on
a state whose node A is DOWN with an open interval since time 5 it leaves
the state untouched, so the final report's event list for A is empty (no
completed event ending at the shutdown instant) and its reported total
downtime is 0, understating the real downtime. -/
theorem C7_ping_shutdown_counterexample :
    Ping.shutdown pingDownState = pingDownState
    ∧ (alookup pingDownState.nodes "A").map Ping.NodeStatus.is_up = some false
    ∧ (alookup pingDownState.nodes "A").map Ping.NodeStatus.downtime_start
        = some (some 5)
    ∧ (alookup (Ping.shutdown pingDownState).nodes "A").map
        Ping.NodeStatus.downtime_events = some []
    ∧ (alookup (Ping.shutdown pingDownState).nodes "A").map
        Ping.NodeStatus.total_downtime = some 0 :=
  ⟨rfl, rfl, rfl, rfl, rfl⟩

/- Idempotence of repeated false verdicts (claim C9). -/

theorem foldl_addNew_noop (ops : List String) (acc : List String)
    (h : ∀ op ∈ ops, op ∈ acc) :
    ops.foldl (fun acc2 op => if op ∈ acc2 then acc2 else acc2 ++ [op]) acc = acc := by
  induction ops generalizing acc with
  | nil => rfl
  | cons o rest ih =>
    have ho : o ∈ acc := h o (List.mem_cons_self _ _)
    simp only [List.foldl_cons, if_pos ho]
    exact ih acc (fun op hop => h op (List.mem_cons_of_mem _ hop))

/-- C9: a false verdict delivered while a downtime event is already open
is a no-op on the ledger: the stats (events list, totals) are unchanged,
the open event keeps its start time, end, duration and failure type, and
when the newly failed operations are already recorded the open event is
completely unchanged — only consecutive_failures and last_error_types
move.  Likewise NodeStatus.mark_down on an already-down node changes
nothing at all. -/
theorem C9_repeated_false_verdict :
    (∀ (n : Ping.NodeStatus) (ts : ℚ), n.is_up = false → n.mark_down ts = n)
    ∧ (∀ (strict : Bool) (st : Ops.MonitorState) (results : List (String × Bool))
         (errs : List String) (now : ℚ) (ev : Ops.DowntimeEvent),
       st.current_downtime = some ev →
       Ops.is_downtime_verdict strict results = true →
       (Ops.detect_downtime_step strict st results errs now).stats = st.stats
       ∧ (∃ ev2, (Ops.detect_downtime_step strict st results errs now).current_downtime
             = some ev2
           ∧ ev2.start_time = ev.start_time
           ∧ ev2.end_time = ev.end_time
           ∧ ev2.duration = ev.duration
           ∧ ev2.failure_type = ev.failure_type)
       ∧ ((∀ op ∈ Ops.failedOps results, op ∈ ev.operations_failed) →
          (Ops.detect_downtime_step strict st results errs now).current_downtime
            = some ev)) := by
  constructor
  · intro n ts h
    unfold Ping.NodeStatus.mark_down
    rw [h]
    rfl
  · intro strict st results errs now ev h1 h2
    unfold Ops.detect_downtime_step
    rw [h2]
    simp only [if_pos rfl]
    rw [h1]
    refine ⟨rfl, ⟨_, rfl, rfl, rfl, rfl, rfl⟩, ?_⟩
    intro hsub
    have hfold : (Ops.failedOps results).foldl
        (fun acc op => if op ∈ acc then acc else acc ++ [op]) ev.operations_failed
        = ev.operations_failed :=
      foldl_addNew_noop _ _ hsub
    simp only [hfold, if_true]

theorem C9_repeated_false_verdict_witness :
    (Ops.detect_downtime_step true opsOngoingState fourProbesOneFail [] 9).stats
      = opsOngoingState.stats :=
  (C9_repeated_false_verdict.2 true opsOngoingState fourProbesOneFail [] 9
      opsOngoingEvent rfl (by decide)).1

/- Lemmas about the slot-assignment loop of update_topology. -/

theorem list_any_congr {γ : Type} {l : List γ} {f g : γ → Bool}
    (h : ∀ x ∈ l, f x = g x) : l.any f = l.any g := by
  induction l with
  | nil => rfl
  | cons a t ih =>
    simp only [List.any_cons, h a (List.mem_cons_self _ _),
      ih (fun x hx => h x (List.mem_cons_of_mem _ hx))]

theorem applyRangeEntry_alookup_ne (now : ℚ)
    (acc : List ((Nat × Nat) × Ping.SlotRange) × Bool) (e : (Nat × Nat) × Ping.NodeId)
    {k : Nat × Nat} (hk : k ≠ e.1) :
    alookup (Ping.applyRangeEntry now acc e).1 k = alookup acc.1 k := by
  unfold Ping.applyRangeEntry
  cases h : alookup acc.1 e.1 with
  | none =>
    dsimp only
    cases h2 : alookup acc.1 k with
    | none =>
      rw [alookup_append_of_none _ h2]
      simp only [alookup]
      rw [if_neg (fun hh => hk hh.symm)]
    | some v => exact alookup_append_of_some _ h2
  | some sr =>
    dsimp only
    by_cases hne : sr.current_master_id ≠ e.2
    · rw [if_pos hne]
      exact alookup_aupdate_ne _ _ hk
    · rw [if_neg hne]

theorem applyRangeEntry_flag (now : ℚ)
    (acc : List ((Nat × Nat) × Ping.SlotRange) × Bool) (e : (Nat × Nat) × Ping.NodeId) :
    (Ping.applyRangeEntry now acc e).2 = (acc.2 || Ping.rangeEntryChanged acc.1 e) := by
  unfold Ping.applyRangeEntry Ping.rangeEntryChanged
  cases h : alookup acc.1 e.1 with
  | none => simp
  | some sr =>
    dsimp only
    by_cases hne : sr.current_master_id ≠ e.2
    · rw [if_pos hne]
      simp [hne]
    · rw [if_neg hne]
      simp [hne]

theorem rangesPass_alookup_not_mem (now : ℚ) (sm : List ((Nat × Nat) × Ping.NodeId))
    {k : Nat × Nat} (hk : k ∉ akeys sm)
    (acc : List ((Nat × Nat) × Ping.SlotRange) × Bool) :
    alookup (sm.foldl (Ping.applyRangeEntry now) acc).1 k = alookup acc.1 k := by
  induction sm generalizing acc with
  | nil => rfl
  | cons e rest ih =>
    simp only [akeys, List.map_cons, List.mem_cons, not_or] at hk
    rw [List.foldl_cons, ih (by simpa [akeys] using hk.2)]
    exact applyRangeEntry_alookup_ne now acc e hk.1

theorem rangesPass_alookup_mem (now : ℚ) (sm : List ((Nat × Nat) × Ping.NodeId))
    (hnd : (akeys sm).Nodup) {r : Nat × Nat} {m : Ping.NodeId} (hm : (r, m) ∈ sm)
    (acc : List ((Nat × Nat) × Ping.SlotRange) × Bool) :
    alookup (sm.foldl (Ping.applyRangeEntry now) acc).1 r
      = some (Ping.rangeTransform (alookup acc.1 r) r m now) := by
  induction sm generalizing acc with
  | nil => simp at hm
  | cons e rest ih =>
    simp only [akeys, List.map_cons, List.nodup_cons] at hnd
    rw [List.foldl_cons]
    rcases List.mem_cons.mp hm with he | hm2
    · have he1 : e.1 = r := by rw [← he]
      have he2 : e.2 = m := by rw [← he]
      have hrnotin : r ∉ akeys rest := by
        rw [← he1]
        simpa [akeys] using hnd.1
      rw [rangesPass_alookup_not_mem now rest hrnotin]
      unfold Ping.applyRangeEntry Ping.rangeTransform
      rw [he1, he2]
      cases h : alookup acc.1 r with
      | none =>
        dsimp only
        rw [alookup_append_of_none _ h]
        simp [alookup]
      | some sr =>
        dsimp only
        by_cases hne : sr.current_master_id ≠ m
        · rw [if_pos hne, if_pos hne]
          rw [alookup_aupdate_self, h]
          rfl
        · rw [if_neg hne, if_neg hne]
          exact h
    · have hr_mem : r ∈ akeys rest := List.mem_map.mpr ⟨(r, m), hm2, rfl⟩
      have hre : r ≠ e.1 := by
        intro hh
        rw [hh] at hr_mem
        exact hnd.1 hr_mem
      rw [ih (by simpa [akeys] using hnd.2) hm2,
        applyRangeEntry_alookup_ne now acc e hre]

theorem rangesPass_flag (now : ℚ) (sm : List ((Nat × Nat) × Ping.NodeId))
    (hnd : (akeys sm).Nodup) (acc : List ((Nat × Nat) × Ping.SlotRange) × Bool) :
    (sm.foldl (Ping.applyRangeEntry now) acc).2
      = (acc.2 || sm.any (Ping.rangeEntryChanged acc.1)) := by
  induction sm generalizing acc with
  | nil => simp
  | cons e rest ih =>
    simp only [akeys, List.map_cons, List.nodup_cons] at hnd
    rw [List.foldl_cons, ih (by simpa [akeys] using hnd.2)]
    have hcongr : rest.any (Ping.rangeEntryChanged (Ping.applyRangeEntry now acc e).1)
        = rest.any (Ping.rangeEntryChanged acc.1) := by
      refine list_any_congr ?_
      intro e2 he2
      have hne : e2.1 ≠ e.1 := by
        intro hh
        have hmem2 : e2.1 ∈ akeys rest := List.mem_map.mpr ⟨e2, he2, rfl⟩
        rw [hh] at hmem2
        exact hnd.1 hmem2
      unfold Ping.rangeEntryChanged
      rw [applyRangeEntry_alookup_ne now acc e hne]
    rw [hcongr, applyRangeEntry_flag, List.any_cons, Bool.or_assoc]

theorem applyRangeEntry_removeFlag (now : ℚ)
    (acc : List ((Nat × Nat) × Ping.SlotRange) × Bool) (e : (Nat × Nat) × Ping.NodeId)
    {smKeys : List (Nat × Nat)} (he : e.1 ∈ smKeys) :
    ((Ping.applyRangeEntry now acc e).1.any fun p => !(decide (p.1 ∈ smKeys)))
      = acc.1.any fun p => !(decide (p.1 ∈ smKeys)) := by
  unfold Ping.applyRangeEntry
  cases h : alookup acc.1 e.1 with
  | none =>
    dsimp only
    simp only [List.any_append, List.any_cons, List.any_nil]
    rw [decide_eq_true he]
    simp
  | some sr =>
    dsimp only
    by_cases hne : sr.current_master_id ≠ e.2
    · rw [if_pos hne]
      exact any_aupdate (fun v => rfl)
    · rw [if_neg hne]

theorem rangesPass_removeFlag (now : ℚ) (sm : List ((Nat × Nat) × Ping.NodeId))
    {smKeys : List (Nat × Nat)} (hsub : ∀ e ∈ sm, e.1 ∈ smKeys)
    (acc : List ((Nat × Nat) × Ping.SlotRange) × Bool) :
    ((sm.foldl (Ping.applyRangeEntry now) acc).1.any fun p => !(decide (p.1 ∈ smKeys)))
      = acc.1.any fun p => !(decide (p.1 ∈ smKeys)) := by
  induction sm generalizing acc with
  | nil => rfl
  | cons e rest ih =>
    rw [List.foldl_cons, ih (fun x hx => hsub x (List.mem_cons_of_mem _ hx))]
    exact applyRangeEntry_removeFlag now acc e (hsub e (List.mem_cons_self _ _))

theorem alookup_removeAbsentRanges {l : List ((Nat × Nat) × Ping.SlotRange)}
    {smKeys : List (Nat × Nat)} {r : Nat × Nat} (hr : r ∈ smKeys) :
    alookup (Ping.removeAbsentRanges l smKeys) r = alookup l r := by
  induction l with
  | nil => rfl
  | cons p rest ih =>
    unfold Ping.removeAbsentRanges at ih ⊢
    rw [List.filter_cons]
    by_cases hkeep : p.1 ∈ smKeys
    · rw [if_pos (decide_eq_true hkeep)]
      simp only [alookup]
      by_cases hk : p.1 = r
      · rw [if_pos hk, if_pos hk]
      · rw [if_neg hk, if_neg hk]
        exact ih
    · rw [if_neg (by simp [hkeep])]
      have hk : ¬ p.1 = r := fun hh => hkeep (hh ▸ hr)
      rw [show alookup (p :: rest) r = alookup rest r by simp [alookup, hk]]
      exact ih

/- Lemmas about node registration in update_topology. -/

theorem registerNode_demotionFlag (masters cnodes : List Ping.NodeId)
    (ns : List (Ping.NodeId × Ping.NodeStatus)) (nid : Ping.NodeId) (b : Bool)
    (hb : b = true → nid ∈ masters) :
    Ping.demotionFlag (Ping.registerNode ns nid b) masters cnodes
      = Ping.demotionFlag ns masters cnodes := by
  unfold Ping.registerNode Ping.demotionFlag
  cases h : alookup ns nid with
  | none =>
    dsimp only
    rw [List.any_append]
    cases b with
    | true =>
      have hm : nid ∈ masters := hb rfl
      simp [Ping.newMasterNode, decide_eq_true hm]
    | false =>
      simp [Ping.newReplicaNode]
  | some v =>
    dsimp only
    cases b with
    | true =>
      have hm : nid ∈ masters := hb rfl
      rw [if_pos rfl]
      apply any_aupdate
      intro w
      simp [decide_eq_true hm]
    | false =>
      rw [if_neg Bool.false_ne_true]

theorem replicasFold_demotionFlag (masters cnodes : List Ping.NodeId)
    (rs : List Ping.NodeId) :
    ∀ ns, Ping.demotionFlag (rs.foldl (fun a r => Ping.registerNode a r false) ns)
        masters cnodes
      = Ping.demotionFlag ns masters cnodes := by
  induction rs with
  | nil => intro ns; rfl
  | cons r rest ih =>
    intro ns
    rw [List.foldl_cons, ih,
      registerNode_demotionFlag masters cnodes ns r false
        (fun hh => absurd hh Bool.false_ne_true)]

theorem addSnapshotNodes_demotionFlag (masters cnodes : List Ping.NodeId)
    (snap : Ping.Snapshot) (hm : ∀ e ∈ snap, e.master ∈ masters) :
    ∀ ns, Ping.demotionFlag (Ping.addSnapshotNodes ns snap) masters cnodes
      = Ping.demotionFlag ns masters cnodes := by
  induction snap with
  | nil => intro ns; rfl
  | cons e rest ih =>
    intro ns
    unfold Ping.addSnapshotNodes
    rw [List.foldl_cons]
    rw [show (List.foldl
        (fun ns2 e2 => e2.replicas.foldl (fun a r => Ping.registerNode a r false)
          (Ping.registerNode ns2 e2.master true)) _ rest)
      = Ping.addSnapshotNodes (e.replicas.foldl (fun a r => Ping.registerNode a r false)
          (Ping.registerNode ns e.master true)) rest from rfl]
    rw [ih (fun x hx => hm x (List.mem_cons_of_mem _ hx)),
      replicasFold_demotionFlag, registerNode_demotionFlag masters cnodes ns e.master true
        (fun _ => hm e (List.mem_cons_self _ _))]

theorem registerNode_isMaster_self (ns : List (Ping.NodeId × Ping.NodeStatus))
    (nid : Ping.NodeId) :
    ∃ n, alookup (Ping.registerNode ns nid true) nid = some n ∧ n.is_master = true := by
  unfold Ping.registerNode
  cases h : alookup ns nid with
  | none =>
    dsimp only
    refine ⟨Ping.newMasterNode nid, ?_, rfl⟩
    rw [alookup_append_of_none _ h]
    simp [alookup]
  | some v =>
    dsimp only
    rw [if_pos rfl]
    refine ⟨{ v with is_master := true }, ?_, rfl⟩
    rw [alookup_aupdate_self, h]
    rfl

theorem registerNode_preserves_isMaster (ns : List (Ping.NodeId × Ping.NodeStatus))
    (k : Ping.NodeId) (b : Bool) {nid : Ping.NodeId} {n : Ping.NodeStatus}
    (h : alookup ns nid = some n) (hm : n.is_master = true) :
    ∃ n2, alookup (Ping.registerNode ns k b) nid = some n2 ∧ n2.is_master = true := by
  unfold Ping.registerNode
  cases hl : alookup ns k with
  | none =>
    dsimp only
    exact ⟨n, alookup_append_of_some _ h, hm⟩
  | some v =>
    dsimp only
    cases b with
    | false =>
      rw [if_neg Bool.false_ne_true]
      exact ⟨n, h, hm⟩
    | true =>
      rw [if_pos rfl]
      by_cases hk : nid = k
      · subst hk
        rw [alookup_aupdate_self, h]
        exact ⟨_, rfl, rfl⟩
      · rw [alookup_aupdate_ne _ _ hk]
        exact ⟨n, h, hm⟩

theorem replicasFold_preserves_isMaster (rs : List Ping.NodeId) :
    ∀ (ns : List (Ping.NodeId × Ping.NodeStatus)) {nid : Ping.NodeId} {n : Ping.NodeStatus},
      alookup ns nid = some n → n.is_master = true →
      ∃ n2, alookup (rs.foldl (fun a r => Ping.registerNode a r false) ns) nid = some n2
        ∧ n2.is_master = true := by
  induction rs with
  | nil => intro ns nid n h hm; exact ⟨n, h, hm⟩
  | cons r rest ih =>
    intro ns nid n h hm
    rw [List.foldl_cons]
    obtain ⟨n2, h2, hm2⟩ := registerNode_preserves_isMaster ns r false h hm
    exact ih _ h2 hm2

theorem addSnapshotNodes_preserves_isMaster (snap : Ping.Snapshot) :
    ∀ (ns : List (Ping.NodeId × Ping.NodeStatus)) {nid : Ping.NodeId} {n : Ping.NodeStatus},
      alookup ns nid = some n → n.is_master = true →
      ∃ n2, alookup (Ping.addSnapshotNodes ns snap) nid = some n2
        ∧ n2.is_master = true := by
  induction snap with
  | nil => intro ns nid n h hm; exact ⟨n, h, hm⟩
  | cons e rest ih =>
    intro ns nid n h hm
    unfold Ping.addSnapshotNodes
    rw [List.foldl_cons]
    obtain ⟨n2, h2, hm2⟩ := registerNode_preserves_isMaster ns e.master true h hm
    obtain ⟨n3, h3, hm3⟩ := replicasFold_preserves_isMaster e.replicas _ h2 hm2
    exact ih _ h3 hm3

theorem addSnapshotNodes_masters (snap : Ping.Snapshot) :
    ∀ (ns : List (Ping.NodeId × Ping.NodeStatus)) {nid : Ping.NodeId},
      nid ∈ Ping.currentMasters snap →
      ∃ n, alookup (Ping.addSnapshotNodes ns snap) nid = some n
        ∧ n.is_master = true := by
  induction snap with
  | nil => intro ns nid h; simp [Ping.currentMasters] at h
  | cons e rest ih =>
    intro ns nid h
    simp only [Ping.currentMasters, List.map_cons, List.mem_cons] at h
    unfold Ping.addSnapshotNodes
    rw [List.foldl_cons]
    rcases h with he | hrest
    · subst he
      obtain ⟨n, hn, hm⟩ := registerNode_isMaster_self ns e.master
      obtain ⟨n2, h2, hm2⟩ := replicasFold_preserves_isMaster e.replicas _ hn hm
      exact addSnapshotNodes_preserves_isMaster rest _ h2 hm2
    · exact ih _ hrest

theorem newMastersFlag_false (snap : Ping.Snapshot)
    (ns : List (Ping.NodeId × Ping.NodeStatus)) :
    Ping.newMastersFlag (Ping.addSnapshotNodes ns snap) (Ping.currentMasters snap)
      = false := by
  unfold Ping.newMastersFlag
  rw [List.any_eq_false]
  intro nid hnid
  obtain ⟨n, hn, hm⟩ := addSnapshotNodes_masters snap ns hnid
  simp [hn, hm]

/- The reconciler's behaviour at one slot range (claims C1, C8, C10, C6). -/

theorem update_topology_slot_ranges (st : Ping.ClusterStatus) (snap : Ping.Snapshot)
    (now : ℚ) :
    (Ping.update_topology st snap now).slot_ranges
      = Ping.removeAbsentRanges
          ((Ping.currentSlotMasters snap).foldl (Ping.applyRangeEntry now)
            (st.slot_ranges, false)).1
          (akeys (Ping.currentSlotMasters snap)) := rfl

theorem update_topology_changes_eq (st : Ping.ClusterStatus) (snap : Ping.Snapshot)
    (now : ℚ) :
    (Ping.update_topology st snap now).topology_changes
      = st.topology_changes +
        (if (Ping.newMastersFlag (Ping.addSnapshotNodes st.nodes snap)
                (Ping.currentMasters snap)
              || Ping.demotionFlag (Ping.addSnapshotNodes st.nodes snap)
                (Ping.currentMasters snap) (Ping.currentNodes snap)
              || ((Ping.currentSlotMasters snap).foldl (Ping.applyRangeEntry now)
                (st.slot_ranges, false)).2
              || Ping.removedRangesFlag
                ((Ping.currentSlotMasters snap).foldl (Ping.applyRangeEntry now)
                  (st.slot_ranges, false)).1
                (akeys (Ping.currentSlotMasters snap)))
          then 1 else 0) := rfl

theorem update_topology_alookup_range (st : Ping.ClusterStatus) (snap : Ping.Snapshot)
    (now : ℚ) {r : Nat × Nat} {m : Ping.NodeId}
    (hd : alookup (Ping.currentSlotMasters snap) r = some m) :
    alookup (Ping.update_topology st snap now).slot_ranges r
      = some (Ping.rangeTransform (alookup st.slot_ranges r) r m now) := by
  rw [update_topology_slot_ranges, alookup_removeAbsentRanges (mem_akeys_of_alookup hd)]
  exact rangesPass_alookup_mem now _ (currentSlotMasters_keys_nodup snap) (alookup_mem hd) _

/-- C1: when a topology snapshot reports for a registered slot range an
owner different from the registered one, update_topology (a) if the range
is down, completes the open downtime event — appending the event
(start, now, duration, old owner, new owner) — installs the new owner and
marks the range up, without any probe on the range; (b) if the range is
up, only the current_master_id field changes. -/
theorem C1_owner_change_reconciliation (st : Ping.ClusterStatus) (snap : Ping.Snapshot)
    (now : ℚ) (r : Nat × Nat) (m : Ping.NodeId) (sr : Ping.SlotRange)
    (hd : alookup (Ping.currentSlotMasters snap) r = some m)
    (hr : alookup st.slot_ranges r = some sr)
    (hne : sr.current_master_id ≠ m) :
    (∀ t : ℚ, sr.is_down = true → sr.downtime_start = some t →
       alookup (Ping.update_topology st snap now).slot_ranges r = some
         { sr with
           is_down := false,
           current_downtime := now - t,
           total_downtime := sr.total_downtime + (now - t),
           downtime_events := sr.downtime_events
             ++ [(t, now, now - t, sr.current_master_id, m)],
           current_master_id := m,
           downtime_start := none })
    ∧ (sr.is_down = false →
       alookup (Ping.update_topology st snap now).slot_ranges r
         = some { sr with current_master_id := m }) := by
  have hbase := update_topology_alookup_range st snap now hd
  rw [hr] at hbase
  unfold Ping.rangeTransform at hbase
  dsimp only at hbase
  rw [if_pos hne] at hbase
  constructor
  · intro t hdown hds
    rw [hbase]
    rw [if_pos hdown]
    unfold Ping.SlotRange.mark_up
    rw [if_pos hdown, hds]
  · intro hup
    rw [hbase]
    rw [if_neg (by rw [hup]; exact Bool.false_ne_true)]

theorem C1_owner_change_reconciliation_witness :
    alookup (Ping.update_topology pingDownRangeState snapOwnerB 7).slot_ranges (0, 16383)
      = some
        { start := 0, «end» := 16383, current_master_id := "B", is_down := false,
          downtime_start := none, current_downtime := 5, total_downtime := 5,
          downtime_events := [(2, 7, 5, "A", "B")] } := by
  have h := (C1_owner_change_reconciliation pingDownRangeState snapOwnerB 7 (0, 16383) "B"
      { start := 0, «end» := 16383, current_master_id := "A", is_down := true,
        downtime_start := some 2 }
      rfl rfl (by decide)).1 2 rfl rfl
  rw [h]
  norm_num

/-- C10: a successful liveness probe on a node (check_node with a true
ping result) leaves every slot range untouched, whatever the node's prior
state; a down slot range is never changed by check_node at all; and a
topology pass whose snapshot reports the already-registered owner for a
range leaves that range's entire record unchanged — so a down range comes
back up only through an owner change seen by update_topology. -/
theorem C10_node_recovery_frame :
    (∀ (st : Ping.ClusterStatus) (nid : Ping.NodeId) (now : ℚ),
       (Ping.check_node st nid true now).slot_ranges = st.slot_ranges)
    ∧ (∀ (st : Ping.ClusterStatus) (nid : Ping.NodeId) (ok : Bool) (now : ℚ)
         (r : Nat × Nat) (sr : Ping.SlotRange),
       alookup st.slot_ranges r = some sr → sr.is_down = true →
       alookup (Ping.check_node st nid ok now).slot_ranges r = some sr)
    ∧ (∀ (st : Ping.ClusterStatus) (snap : Ping.Snapshot) (now : ℚ)
         (r : Nat × Nat) (sr : Ping.SlotRange),
       alookup st.slot_ranges r = some sr →
       alookup (Ping.currentSlotMasters snap) r = some sr.current_master_id →
       alookup (Ping.update_topology st snap now).slot_ranges r = some sr) := by
  refine ⟨?_, ?_, ?_⟩
  · intro st nid now
    unfold Ping.check_node
    cases h : alookup st.nodes nid with
    | none => rfl
    | some node =>
      dsimp only
      rw [if_pos rfl]
  · intro st nid ok now r sr hr hdown
    unfold Ping.check_node
    cases h : alookup st.nodes nid with
    | none => exact hr
    | some node =>
      dsimp only
      cases ok with
      | true =>
        rw [if_pos rfl]
        exact hr
      | false =>
        rw [if_neg Bool.false_ne_true]
        by_cases hup : node.is_up = true
        · rw [if_pos hup]
          have hf : ∀ p : (Nat × Nat) × Ping.SlotRange,
              ((if p.2.current_master_id = nid ∧ ¬ p.2.is_down then
                  (p.1, p.2.mark_down now) else p) : (Nat × Nat) × Ping.SlotRange).1
                = p.1 := by
            intro p
            by_cases hc : p.2.current_master_id = nid ∧ ¬ p.2.is_down
            · rw [if_pos hc]
            · rw [if_neg hc]
          have := alookup_map_of_some hf hr
          rw [this]
          have hc : ¬ (sr.current_master_id = nid ∧ ¬ sr.is_down = true) := by
            intro hcontra
            exact hcontra.2 hdown
          rw [if_neg hc]
        · rw [if_neg hup]
          exact hr
  · intro st snap now r sr hr hd
    have hbase := update_topology_alookup_range st snap now hd
    rw [hr] at hbase
    unfold Ping.rangeTransform at hbase
    dsimp only at hbase
    rw [if_neg (fun hcontra => hcontra rfl)] at hbase
    exact hbase

theorem C10_node_recovery_frame_witness :
    alookup (Ping.check_node pingDownRangeState "A" true 9).slot_ranges (0, 16383)
      = some
        { start := 0, «end» := 16383, current_master_id := "A", is_down := true,
          downtime_start := some 2 } :=
  C10_node_recovery_frame.2.1 pingDownRangeState "A" true 9 (0, 16383)
    { start := 0, «end» := 16383, current_master_id := "A", is_down := true,
      downtime_start := some 2 } rfl rfl

/- The topology change counter (claim C6). -/

theorem removedFlag_after_rangesPass (now : ℚ) (sm : List ((Nat × Nat) × Ping.NodeId))
    (ranges : List ((Nat × Nat) × Ping.SlotRange)) :
    Ping.removedRangesFlag ((sm.foldl (Ping.applyRangeEntry now) (ranges, false)).1)
        (akeys sm)
      = Ping.removedRangesFlag ranges (akeys sm) := by
  unfold Ping.removedRangesFlag
  exact rangesPass_removeFlag now sm (fun e he => List.mem_map.mpr ⟨e, he, rfl⟩) _

theorem nat_add_if_or_iff (tc : Nat) (x y z : Bool) :
    tc + (if (x || y || z) = true then 1 else 0) = tc + 1
      ↔ (x = true ∨ y = true ∨ z = true) := by
  cases x <;> cases y <;> cases z <;> simp

/-- C6: update_topology increments topology_changes exactly when the pass
demotes a tracked master that is still in the cluster, or some snapshot
range is new to the registry or carries an owner different from the
registered one, or some registered range is absent from the snapshot.
This is the claim with "a node added" and "a node removed" deleted from
the list of incrementing changes: the code registers new nodes and marks
removed nodes down without setting its topology_changed flag (see the
counterexample). -/
theorem C6_topology_change_counter (st : Ping.ClusterStatus) (snap : Ping.Snapshot)
    (now : ℚ) :
    (Ping.update_topology st snap now).topology_changes = st.topology_changes + 1
      ↔ (Ping.demotionFlag st.nodes (Ping.currentMasters snap)
            (Ping.currentNodes snap) = true
         ∨ (Ping.currentSlotMasters snap).any
             (Ping.rangeEntryChanged st.slot_ranges) = true
         ∨ Ping.removedRangesFlag st.slot_ranges
             (akeys (Ping.currentSlotMasters snap)) = true) := by
  rw [update_topology_changes_eq, newMastersFlag_false,
    addSnapshotNodes_demotionFlag (Ping.currentMasters snap) (Ping.currentNodes snap)
      snap (fun e he => show e.master ∈ Ping.currentMasters snap from
        List.mem_map.mpr ⟨e, he, rfl⟩) st.nodes,
    rangesPass_flag now _ (currentSlotMasters_keys_nodup snap),
    removedFlag_after_rangesPass]
  simp only [Bool.false_or]
  exact nat_add_if_or_iff st.topology_changes _ _ _

/-- C6, counterexample: a snapshot identical to the registered topology
except for a brand-new replica node B: update_topology adds node B to the
registry (a "node added" change) yet does not increment topology_changes,
refuting the claim's "if" direction for node additions. -/
theorem C6_node_added_counterexample :
    alookup pingBaseState.nodes "B" = none
    ∧ (alookup (Ping.update_topology pingBaseState snapAddReplica 7).nodes "B").isSome
        = true
    ∧ (Ping.update_topology pingBaseState snapAddReplica 7).topology_changes
        = pingBaseState.topology_changes := by
  decide

/- Snapshot validation (claim C8). -/

/-- C8, amendment: the reconciler performs no overlap or coverage
validation at all — every range of any snapshot's slot-to-owner map,
well-formed or not, is present in the registry after update_topology
(rather than the snapshot being rejected). -/
theorem C8_snapshot_always_applied (st : Ping.ClusterStatus) (snap : Ping.Snapshot)
    (now : ℚ) (r : Nat × Nat) (m : Ping.NodeId)
    (hd : alookup (Ping.currentSlotMasters snap) r = some m) :
    (alookup (Ping.update_topology st snap now).slot_ranges r).isSome = true := by
  rw [update_topology_alookup_range st snap now hd]
  rfl

theorem C8_snapshot_always_applied_witness :
    (alookup (Ping.update_topology pingEmptyState snapOverlapping 3).slot_ranges
        (0, 100)).isSome = true :=
  C8_snapshot_always_applied pingEmptyState snapOverlapping 3 (0, 100) "A" rfl

/-- C8, counterexample: the snapshot assigning slots 0-100 to A and slots
50-200 to B is malformed (the ranges overlap at slot 50), yet
update_topology applies it: both overlapping ranges enter the registry,
which is therefore not left unchanged. -/
theorem C8_overlap_counterexample :
    ((50:Nat) ≤ 100 ∧ (50:Nat) ≤ 200)
    ∧ (alookup (Ping.update_topology pingEmptyState snapOverlapping 3).slot_ranges
        (0, 100)).isSome = true
    ∧ (alookup (Ping.update_topology pingEmptyState snapOverlapping 3).slot_ranges
        (50, 200)).isSome = true
    ∧ (Ping.update_topology pingEmptyState snapOverlapping 3).slot_ranges
        ≠ pingEmptyState.slot_ranges := by
  decide

/- Health-state invariant preservation (claim C5). -/

theorem nodeMarkDown_healthInv (n : Ping.NodeStatus) (ts : ℚ) (h : n.healthInv) :
    (n.mark_down ts).healthInv := by
  unfold Ping.NodeStatus.mark_down
  by_cases hup : n.is_up = true
  · rw [if_pos hup]
    simp [Ping.NodeStatus.healthInv]
  · rw [if_neg hup]
    exact h

theorem nodeMarkUp_healthInv (n : Ping.NodeStatus) (ts : ℚ) (h : n.healthInv) :
    (n.mark_up ts).healthInv := by
  unfold Ping.NodeStatus.mark_up
  by_cases hup : n.is_up = true
  · rw [if_neg (fun hh => hh hup)]
    exact h
  · rw [if_pos hup]
    cases hds : n.downtime_start with
    | none => exact h
    | some ds => simp [Ping.NodeStatus.healthInv]

theorem slotMarkDown_healthInv (sr : Ping.SlotRange) (ts : ℚ) (h : sr.healthInv) :
    (sr.mark_down ts).healthInv := by
  unfold Ping.SlotRange.mark_down
  by_cases hdown : sr.is_down = true
  · rw [if_neg (fun hh => hh hdown)]
    exact h
  · rw [if_pos hdown]
    simp [Ping.SlotRange.healthInv]

theorem slotMarkUp_healthInv (sr : Ping.SlotRange) (m : Ping.NodeId) (ts : ℚ)
    (h : sr.healthInv) : (sr.mark_up m ts).healthInv := by
  unfold Ping.SlotRange.mark_up
  by_cases hdown : sr.is_down = true
  · rw [if_pos hdown]
    cases hds : sr.downtime_start with
    | none => exact h
    | some ds => simp [Ping.SlotRange.healthInv]
  · rw [if_neg hdown]
    exact h

theorem shardMarkDown_healthInv (s : Keys.ShardStatus) (ts : ℚ) (h : s.healthInv) :
    (s.mark_down ts).healthInv := by
  unfold Keys.ShardStatus.mark_down
  by_cases hup : s.is_up = true
  · rw [if_pos hup]
    simp [Keys.ShardStatus.healthInv]
  · rw [if_neg hup]
    exact h

theorem shardMarkUp_healthInv (s : Keys.ShardStatus) (ts : ℚ) (h : s.healthInv) :
    (s.mark_up ts).healthInv := by
  unfold Keys.ShardStatus.mark_up
  by_cases hup : s.is_up = true
  · rw [if_neg (fun hh => hh hup)]
    exact h
  · rw [if_pos hup]
    cases hds : s.downtime_start with
    | none => exact h
    | some ds => simp [Keys.ShardStatus.healthInv]

theorem registerNode_healthInv {ns : List (Ping.NodeId × Ping.NodeStatus)}
    (h : ∀ p ∈ ns, Ping.NodeStatus.healthInv p.2) (nid : Ping.NodeId) (b : Bool) :
    ∀ p ∈ Ping.registerNode ns nid b, Ping.NodeStatus.healthInv p.2 := by
  unfold Ping.registerNode
  cases hl : alookup ns nid with
  | none =>
    dsimp only
    intro p hp
    rcases List.mem_append.mp hp with hp | hp
    · exact h p hp
    · rw [List.mem_singleton.mp hp]
      cases b with
      | true => simp [Ping.NodeStatus.healthInv, Ping.newMasterNode]
      | false => simp [Ping.NodeStatus.healthInv, Ping.newReplicaNode]
  | some v =>
    dsimp only
    cases b with
    | false =>
      rw [if_neg Bool.false_ne_true]
      exact h
    | true =>
      rw [if_pos rfl]
      exact forall_aupdate h (fun w hw => hw)

theorem replicasFold_healthInv (rs : List Ping.NodeId) :
    ∀ ns, (∀ p ∈ ns, Ping.NodeStatus.healthInv p.2) →
      ∀ p ∈ rs.foldl (fun a r => Ping.registerNode a r false) ns,
        Ping.NodeStatus.healthInv p.2 := by
  induction rs with
  | nil => intro ns h; exact h
  | cons r rest ih =>
    intro ns h
    rw [List.foldl_cons]
    exact ih _ (registerNode_healthInv h r false)

theorem addSnapshotNodes_healthInv (snap : Ping.Snapshot) :
    ∀ ns, (∀ p ∈ ns, Ping.NodeStatus.healthInv p.2) →
      ∀ p ∈ Ping.addSnapshotNodes ns snap, Ping.NodeStatus.healthInv p.2 := by
  induction snap with
  | nil => intro ns h; exact h
  | cons e rest ih =>
    intro ns h
    unfold Ping.addSnapshotNodes
    rw [List.foldl_cons]
    exact ih _ (replicasFold_healthInv e.replicas _ (registerNode_healthInv h e.master true))

theorem updateNodeEntry_healthInv (masters cnodes : List Ping.NodeId) (now : ℚ)
    (p : Ping.NodeId × Ping.NodeStatus) (h : p.2.healthInv) :
    (Ping.updateNodeEntry masters cnodes now p).2.healthInv := by
  unfold Ping.updateNodeEntry
  by_cases h1 : p.1 ∈ masters
  · rw [if_pos h1]
    exact h
  · rw [if_neg h1]
    by_cases h2 : p.1 ∈ cnodes
    · rw [if_pos h2]
      exact h
    · rw [if_neg h2]
      exact nodeMarkDown_healthInv _ _ h

theorem applyRangeEntry_healthInv (now : ℚ)
    (acc : List ((Nat × Nat) × Ping.SlotRange) × Bool) (e : (Nat × Nat) × Ping.NodeId)
    (h : ∀ p ∈ acc.1, Ping.SlotRange.healthInv p.2) :
    ∀ p ∈ (Ping.applyRangeEntry now acc e).1, Ping.SlotRange.healthInv p.2 := by
  unfold Ping.applyRangeEntry
  cases hl : alookup acc.1 e.1 with
  | none =>
    dsimp only
    intro p hp
    rcases List.mem_append.mp hp with hp | hp
    · exact h p hp
    · rw [List.mem_singleton.mp hp]
      simp [Ping.SlotRange.healthInv]
  | some sr =>
    dsimp only
    by_cases hne : sr.current_master_id ≠ e.2
    · rw [if_pos hne]
      refine forall_aupdate h (fun w hw => ?_)
      by_cases hdown : w.is_down = true
      · rw [if_pos hdown]
        exact slotMarkUp_healthInv _ _ _ hw
      · rw [if_neg hdown]
        exact hw
    · rw [if_neg hne]
      exact h

theorem rangesPass_healthInv (now : ℚ) (sm : List ((Nat × Nat) × Ping.NodeId)) :
    ∀ (acc : List ((Nat × Nat) × Ping.SlotRange) × Bool),
      (∀ p ∈ acc.1, Ping.SlotRange.healthInv p.2) →
      ∀ p ∈ (sm.foldl (Ping.applyRangeEntry now) acc).1,
        Ping.SlotRange.healthInv p.2 := by
  induction sm with
  | nil => intro acc h; exact h
  | cons e rest ih =>
    intro acc h
    rw [List.foldl_cons]
    exact ih _ (applyRangeEntry_healthInv now acc e h)

theorem update_topology_healthInv (st : Ping.ClusterStatus) (snap : Ping.Snapshot)
    (now : ℚ) (hn : ∀ p ∈ st.nodes, Ping.NodeStatus.healthInv p.2)
    (hr : ∀ p ∈ st.slot_ranges, Ping.SlotRange.healthInv p.2) :
    (∀ p ∈ (Ping.update_topology st snap now).nodes, Ping.NodeStatus.healthInv p.2)
    ∧ (∀ p ∈ (Ping.update_topology st snap now).slot_ranges,
        Ping.SlotRange.healthInv p.2) := by
  constructor
  · intro p hp
    have hnodes : (Ping.update_topology st snap now).nodes
        = (Ping.addSnapshotNodes st.nodes snap).map
            (Ping.updateNodeEntry (Ping.currentMasters snap) (Ping.currentNodes snap)
              now) := rfl
    rw [hnodes] at hp
    rcases List.mem_map.mp hp with ⟨q, hq, hpq⟩
    rw [← hpq]
    exact updateNodeEntry_healthInv _ _ _ q (addSnapshotNodes_healthInv snap st.nodes hn q hq)
  · intro p hp
    rw [update_topology_slot_ranges] at hp
    unfold Ping.removeAbsentRanges at hp
    have hp2 := (List.mem_filter.mp hp).1
    exact rangesPass_healthInv now _ _ hr p hp2

/-- C5: the state invariant "the entity is down iff downtime_start is
set" (equivalently: downtime_start is null whenever the entity is up) is
preserved by every mark_down and mark_up of nodes, slot ranges and
shards, and by a whole topology-reconciliation pass over all tracked
nodes and slot ranges. -/
theorem C5_health_invariant :
    (∀ (n : Ping.NodeStatus) (ts : ℚ), n.healthInv → (n.mark_down ts).healthInv)
    ∧ (∀ (n : Ping.NodeStatus) (ts : ℚ), n.healthInv → (n.mark_up ts).healthInv)
    ∧ (∀ (sr : Ping.SlotRange) (ts : ℚ), sr.healthInv → (sr.mark_down ts).healthInv)
    ∧ (∀ (sr : Ping.SlotRange) (m : Ping.NodeId) (ts : ℚ), sr.healthInv →
        (sr.mark_up m ts).healthInv)
    ∧ (∀ (s : Keys.ShardStatus) (ts : ℚ), s.healthInv → (s.mark_down ts).healthInv)
    ∧ (∀ (s : Keys.ShardStatus) (ts : ℚ), s.healthInv → (s.mark_up ts).healthInv)
    ∧ (∀ (st : Ping.ClusterStatus) (snap : Ping.Snapshot) (now : ℚ),
        (∀ p ∈ st.nodes, Ping.NodeStatus.healthInv p.2) →
        (∀ p ∈ st.slot_ranges, Ping.SlotRange.healthInv p.2) →
        (∀ p ∈ (Ping.update_topology st snap now).nodes, Ping.NodeStatus.healthInv p.2)
        ∧ (∀ p ∈ (Ping.update_topology st snap now).slot_ranges,
            Ping.SlotRange.healthInv p.2)) :=
  ⟨fun n ts h => nodeMarkDown_healthInv n ts h,
   fun n ts h => nodeMarkUp_healthInv n ts h,
   fun sr ts h => slotMarkDown_healthInv sr ts h,
   fun sr m ts h => slotMarkUp_healthInv sr m ts h,
   fun s ts h => shardMarkDown_healthInv s ts h,
   fun s ts h => shardMarkUp_healthInv s ts h,
   fun st snap now hn hr => update_topology_healthInv st snap now hn hr⟩

theorem C5_health_invariant_witness :
    (Ping.NodeStatus.mark_down { node_id := "A", is_master := true } 3).healthInv :=
  C5_health_invariant.1 { node_id := "A", is_master := true } 3 (by decide)
